import Mathlib

/-!
Shallow embedding of the shrig-backend ingestion / cache / broadcast core
(`src/services/cache.service.ts`, `src/services/websocket.service.ts`
(DataService), `src/jobs/data-processor.job.ts`, the WebSocketService
subscription registry, and the DataController routing branch), together
with theorems settling the frozen claims about it.

Conventions of the embedding:
* JavaScript dynamic values carried by payloads are `JsVal`; cached/serialized
  values are `JVal` (the serializable JSON fragment the cache claims need).
* `Date.now()` is an explicit `now : Nat` argument (milliseconds);
  `Math.random().toString(36).substring(2, 9)` is an explicit `rand : String`.
* A broker (redis) call that may fail is given an explicit `fail : Bool`
  fault-injection argument: `fail = true` means the underlying client call
  rejects and the `catch` branch of the wrapper runs.
* `JSON.parse (JSON.stringify v) = v` for serializable values, so the shared
  store maps full keys to `JVal`s; the source's truthiness test
  `if (cachedData)` on the *serialized string* is modelled as a test on
  `stringify v`, and the truthiness test `if (redisData)` on the *parsed
  value* as a test on the value itself.
* Asynchronous effects are explicit state passing over `SysState`
  (persisted points, shared cache store, job queue, emitted broadcasts);
  enqueueing appends a job, it never runs one.
-/

namespace Shrig

/-- Dynamic JavaScript value as it can appear in a submitted payload field;
`obj` stands for any non-null object. -/
inductive JsVal where
  | null
  | undef
  | bool (b : Bool)
  | num (q : ℚ)
  | str (s : String)
  | obj
deriving DecidableEq

/-- JavaScript `typeof`. -/
def jsTypeOf : JsVal → String
  | .null => "object"
  | .undef => "undefined"
  | .bool _ => "boolean"
  | .num _ => "number"
  | .str _ => "string"
  | .obj => "object"

/-- JavaScript truthiness of a dynamic value. -/
def jsTruthy : JsVal → Bool
  | .null => false
  | .undef => false
  | .bool b => b
  | .num q => decide (q ≠ 0)
  | .str s => decide (s ≠ "")
  | .obj => true

/-- A telemetry data point as submitted to `DataService.ingestData`
(`type`/`value`/optional `metadata`; the timestamp plays no role in the
embedded operations). A missing `type` is modelled as `""` (both are falsy). -/
structure DataPoint where
  type : String
  value : JsVal
  metadata : Option JsVal
deriving DecidableEq

/-- Serializable JSON value stored in the cache (the fragment the claims
exercise). -/
inductive JVal where
  | null
  | bool (b : Bool)
  | num (n : Nat)
  | str (s : String)
deriving DecidableEq

/-- `JSON.stringify` on a serializable value. String values are emitted
between quotes (escaping is irrelevant to the properties proved: only
non-emptiness and invertibility of the serialized form are used). -/
def stringify : JVal → String
  | .null => "null"
  | .bool true => "true"
  | .bool false => "false"
  | .num n => Nat.repr n
  | .str s => "\"" ++ s ++ "\""

/-- JavaScript truthiness of a parsed JSON value. -/
def truthy : JVal → Bool
  | .null => false
  | .bool b => b
  | .num n => decide (n ≠ 0)
  | .str s => decide (s ≠ "")

theorem toDigitsCore_length_le (b fuel : Nat) : ∀ (n : Nat) (ds : List Char),
    ds.length ≤ (Nat.toDigitsCore b fuel n ds).length := by
  induction fuel with
  | zero => intro n ds; simp [Nat.toDigitsCore]
  | succ f ih =>
    intro n ds
    unfold Nat.toDigitsCore
    dsimp only
    split
    · simp
    · exact le_trans (by simp) (ih _ _)

theorem repr_ne_empty (n : Nat) : Nat.repr n ≠ "" := by
  have h : 1 ≤ (Nat.toDigits 10 n).length := by
    unfold Nat.toDigits Nat.toDigitsCore
    dsimp only
    split
    · simp
    · exact le_trans (by simp) (toDigitsCore_length_le 10 _ _ _)
  intro hcon
  have h2 : (Nat.repr n).data = [] := by rw [hcon]
  rw [Nat.repr] at h2
  have h3 : Nat.toDigits 10 n = [] := by simpa [List.asString] using h2
  rw [h3] at h
  simp at h

theorem data_eq_of_eq {s t : String} (h : s = t) : s.data = t.data := by rw [h]

theorem string_ext {s t : String} (h : s.data = t.data) : s = t := by
  cases s; cases t; simp_all

/-- No serializable value serializes to the empty string, so the source's
`if (cachedData)` guard on the serialized string never drops a stored value. -/
theorem stringify_ne_empty (v : JVal) : stringify v ≠ "" := by
  cases v with
  | null => decide
  | bool b => cases b <;> decide
  | num n => exact repr_ne_empty n
  | str s =>
    intro h
    have h2 := data_eq_of_eq h
    simp [stringify, String.data_append] at h2

/-- The shared cache tier (redis): full key, stored value, TTL in seconds.
Redis-side expiry is not consulted by any embedded operation (no claim
involves an elapsed shared TTL); the TTL is recorded to show what `setEx`
writes. -/
abbrev Store := List (String × JVal × Nat)

/-- Redis `GET`/`EXISTS`-style lookup by exact full key. -/
def storeLookup : Store → String → Option JVal
  | [], _ => none
  | (k', v, _) :: rest, k => if k' = k then some v else storeLookup rest k

/-- Redis `DEL` of one full key. -/
def storeRemove : Store → String → Store
  | [], _ => []
  | (k', v, ttl) :: rest, k =>
    if k' = k then storeRemove rest k else (k', v, ttl) :: storeRemove rest k

/-- Redis `SETEX`: upsert a key with a value and TTL. -/
def storeSet (st : Store) (k : String) (v : JVal) (ttl : Nat) : Store :=
  (k, v, ttl) :: storeRemove st k

/-- Redis glob matching, for the only pattern shape the repository uses:
either an exact key or a trailing-star pattern (as in `data:history:*`). -/
def globChars : List Char → List Char → Bool
  | [], ks => ks.isEmpty
  | c :: cs, ks =>
    if c == '*' && cs.isEmpty then true
    else
      match ks with
      | [] => false
      | k :: ks' => c == k && globChars cs ks'

/-- Redis `KEYS pattern` match on a single key. -/
def globMatch (pat key : String) : Bool :=
  globChars pat.data key.data

/-- `KEYS pattern` followed by `DEL` of every match. -/
def storeRemoveMatching : Store → String → Store
  | [], _ => []
  | (k', v, ttl) :: rest, pat =>
    if globMatch pat k' then storeRemoveMatching rest pat
    else (k', v, ttl) :: storeRemoveMatching rest pat

/-- The process-wide key namespace (`CACHE_PREFIX`, default `shrig:`). -/
def KEY_NS : String := "shrig:"

/-- `CacheService.getKey`: namespace a caller key. -/
def getKey (key : String) : String := KEY_NS ++ key

/-- `CacheService.get`: on broker error (`fail`) the catch branch logs and
returns `null`; otherwise the serialized string is fetched and, if truthy
(non-empty), parsed back to the stored value. -/
def cacheGet (fail : Bool) (st : Store) (key : String) : Option JVal :=
  if fail then none
  else
    match storeLookup st (getKey key) with
    | some v => if stringify v = "" then none else some v
    | none => none

/-- `CacheService.set`: returns `false` (never throws) on broker error,
otherwise `setEx` with the given TTL and returns `true`. -/
def cacheSet (fail : Bool) (st : Store) (key : String) (v : JVal) (ttl : Nat) :
    Bool × Store :=
  if fail then (false, st)
  else (true, storeSet st (getKey key) v ttl)

/-- `CacheService.del`: returns `false` (never throws) on broker error. -/
def cacheDel (fail : Bool) (st : Store) (key : String) : Bool × Store :=
  if fail then (false, st)
  else (true, storeRemove st (getKey key))

/-- `CacheService.invalidatePattern`: enumerate keys matching the namespaced
pattern, bulk-delete them; returns `false` (never throws) on broker error. -/
def cacheInvalidatePattern (fail : Bool) (st : Store) (pat : String) :
    Bool × Store :=
  if fail then (false, st)
  else (true, storeRemoveMatching st (KEY_NS ++ pat))

/-- The in-process tier (`memoryCache`): caller key (un-namespaced), parsed
value, absolute expiry in milliseconds. -/
abbrev MemCache := List (String × JVal × Nat)

/-- `Map.get` on the in-process tier. -/
def memLookup : MemCache → String → Option (JVal × Nat)
  | [], _ => none
  | (k', v, e) :: rest, k => if k' = k then some (v, e) else memLookup rest k

/-- Value-level removal used to keep `memSet` an upsert. -/
def memRemove : MemCache → String → MemCache
  | [], _ => []
  | (k', v, e) :: rest, k =>
    if k' = k then memRemove rest k else (k', v, e) :: memRemove rest k

/-- `Map.set` on the in-process tier. -/
def memSet (m : MemCache) (k : String) (v : JVal) (expiry : Nat) : MemCache :=
  (k, v, expiry) :: memRemove m k

/-- The shared-tier leg of `getMultiLevel`: read through `CacheService.get`;
a truthy parsed value repopulates the in-process tier with the fixed
`now + 60000` local expiry. The final `Nat` counts shared-tier round trips. -/
def getMultiLevelShared (fail : Bool) (mem : MemCache) (st : Store)
    (key : String) (now : Nat) : Option JVal × MemCache × Nat :=
  match cacheGet fail st key with
  | some v =>
    if truthy v then (some v, memSet mem key v (now + 60000), 1)
    else (none, mem, 1)
  | none => (none, mem, 1)

/-- `CacheService.getMultiLevel`: in-process tier first (unexpired entries are
returned without any shared call); on miss or local expiry, fall through to
the shared tier. -/
def getMultiLevel (fail : Bool) (mem : MemCache) (st : Store) (key : String)
    (now : Nat) : Option JVal × MemCache × Nat :=
  match memLookup mem key with
  | some (d, exp) =>
    if now < exp then (some d, mem, 0)
    else getMultiLevelShared fail mem st key now
  | none => getMultiLevelShared fail mem st key now

/-- Errors `DataService.ingestData` can throw, by origin. `cacheFailure` is
the error class a cache-layer throw would produce; the theorems show it is
never produced. -/
inductive IngestErr where
  | noPoints
  | invalid (msg : String)
  | storageFailure
  | cacheFailure
deriving DecidableEq

/-- Message of the first `validateDataPoints` throw. -/
def typeErrMsg : String := "Invalid data point: type is required and must be a string"

/-- Message of the second `validateDataPoints` throw. -/
def valueErrMsg : String := "Invalid data point: value must be a number"

/-- Message of the third `validateDataPoints` throw. -/
def metadataErrMsg : String := "Invalid data point: metadata must be an object"

/-- One iteration of `DataService.validateDataPoints`. The first guard is
transcribed exactly as written in the source, which tests
`typeof point.value !== "string"` twice (sic) — not `point.type`. -/
def validatePoint (p : DataPoint) : Except IngestErr Unit :=
  if p.type == "" || jsTypeOf p.value != "string" || jsTypeOf p.value != "string" then
    .error (.invalid typeErrMsg)
  else if jsTypeOf p.value != "number" then
    .error (.invalid valueErrMsg)
  else if (match p.metadata with
           | some m => jsTruthy m && jsTypeOf m != "object"
           | none => false) then
    .error (.invalid metadataErrMsg)
  else .ok ()

/-- `DataService.validateDataPoints`: first violation throws. -/
def validateDataPoints : List DataPoint → Except IngestErr Unit
  | [] => .ok ()
  | p :: rest =>
    match validatePoint p with
    | .error e => .error e
    | .ok _ => validateDataPoints rest

/-- Validity of a data point as the spec states it (non-empty type, numeric
value, metadata — if present — an object); used only to express the claims,
never inside the embedded code. -/
def specValidPoint (p : DataPoint) : Bool :=
  p.type != "" && jsTypeOf p.value == "number" &&
    (match p.metadata with
     | some m => jsTypeOf m == "object"
     | none => true)

/-- A job admitted to the bull queue: payload chunk and bull priority.
(The diagnostic `batch_id` `addDataProcessingJob` generates internally is
not part of any claim and is not modelled.) -/
structure QueueJob where
  data : List DataPoint
  priority : Nat
deriving DecidableEq

/-- A notification handed to the Broadcast Service by the job worker. -/
inductive Broadcast where
  | global (batchId : String) (count : Nat) (stats : JVal)
  | room (roomName : String) (typeName : String) (stats : JVal)
deriving DecidableEq

/-- Observable system state: persisted points (storage collaborator), shared
cache store, admitted jobs, and emitted broadcast events. -/
structure SysState where
  db : List DataPoint
  store : Store
  queue : List QueueJob
  broadcasts : List Broadcast
deriving DecidableEq

/-- Per-call broker fault injection for the three cache calls of
`invalidateDataCaches`. -/
structure CacheFaults where
  delStats : Bool
  delRealtime : Bool
  invHistory : Bool
deriving DecidableEq

/-- The all-healthy fault assignment. -/
def noFaults : CacheFaults := ⟨false, false, false⟩

/-- `DataService.CACHE_KEY.DATA_STATS`. -/
def DATA_STATS_KEY : String := "data:stats"

/-- `DataService.CACHE_KEY.REALTIME_STATS` — the key the realtime-stats read
path consults. -/
def REALTIME_STATS_KEY : String := "data:realtime_stats"

/-- `DataService.invalidateDataCaches`: deletes the two stats keys and the
history pattern. `cacheDel` and `cacheInvalidatePattern` return a flag and
never throw, so the source's catch-and-rethrow branch is unreachable and the
operation is total; the `Promise.all` over independent keys is modelled
sequentially. -/
def invalidateDataCaches (cf : CacheFaults) (st : Store) : Store :=
  let r1 := cacheDel cf.delStats st DATA_STATS_KEY
  let r2 := cacheDel cf.delRealtime r1.2 REALTIME_STATS_KEY
  let r3 := cacheInvalidatePattern cf.invHistory r2.2 "data:history:*"
  r3.2

/-- The synchronous-path batch identifier: the template literal
`immediate_Date.now()` from `ingestData` (no random component). -/
def immediateBatchId (now : Nat) : String := "immediate_" ++ Nat.repr now

/-- The queued-path batch identifier: `batch_Date.now()_rand` where `rand`
is the 7-character base-36 random suffix. -/
def queuedBatchId (now : Nat) (rand : String) : String :=
  "batch_" ++ Nat.repr now ++ "_" ++ rand

/-- `addDataProcessingJob`: admit one job with the given bull priority;
never blocks on processing. -/
def addDataProcessingJob (q : List QueueJob) (data : List DataPoint)
    (priority : Nat) : List QueueJob :=
  q ++ [⟨data, priority⟩]

/-- `DataService.ingestData`: reject empty input, validate, then route by
size — at most 10 points persist synchronously and invalidate dependent
caches (a storage rejection propagates); otherwise the whole batch is handed
to the queue with priority 1 and `queued = true` is returned at once. -/
def ingestData (st : SysState) (pts : List DataPoint) (storageFail : Bool)
    (cf : CacheFaults) (now : Nat) (rand : String) :
    Except IngestErr (String × Bool) × SysState :=
  if pts.length = 0 then (.error .noPoints, st)
  else
    match validateDataPoints pts with
    | .error e => (.error e, st)
    | .ok _ =>
      if pts.length ≤ 10 then
        if storageFail then (.error .storageFailure, st)
        else
          let st1 : SysState := { st with db := st.db ++ pts }
          let st2 : SysState := { st1 with store := invalidateDataCaches cf st1.store }
          (.ok (immediateBatchId now, false), st2)
      else
        (.ok (queuedBatchId now rand, true),
         { st with queue := addDataProcessingJob st.queue pts 1 })

/-- The chunking loop of `ingestHighThroughputData`
(`for i = 0; i < length; i += 1000: push(slice(i, i + 1000))`). -/
def chunkBatches : List DataPoint → List (List DataPoint)
  | [] => []
  | p :: rest =>
    (p :: rest).take 1000 :: chunkBatches ((p :: rest).drop 1000)
termination_by l => l.length
decreasing_by simp; omega

/-- The per-chunk enqueue map of `ingestHighThroughputData`
(`priority = index < 3 ? 2 : 1`). -/
def queueChunks (idx : Nat) : List (List DataPoint) → List QueueJob
  | [] => []
  | b :: bs => ⟨b, if idx < 3 then 2 else 1⟩ :: queueChunks (idx + 1) bs

/-- `DataService.ingestHighThroughputData` as the list of jobs it admits. -/
def ingestHighThroughputData (stream : List DataPoint) : List QueueJob :=
  queueChunks 0 (chunkBatches stream)

/-- Effect of `ingestHighThroughputData` on the system: jobs are admitted,
nothing is persisted or processed synchronously. -/
def runHighThroughput (st : SysState) (stream : List DataPoint) : SysState :=
  { st with queue := st.queue ++ ingestHighThroughputData stream }

/-- The response classes of `DataController.ingestData`. -/
inductive ControllerResult where
  | badRequest
  | acceptedHighThroughput
  | fromIngest (r : Except IngestErr (String × Bool))

/-- `DataController.ingestData` routing: empty body is a 400, more than 5000
points go to the high-throughput chunking path (202), anything else goes
through `DataService.ingestData`. -/
def controllerIngest (st : SysState) (pts : List DataPoint)
    (storageFail : Bool) (cf : CacheFaults) (now : Nat) (rand : String) :
    ControllerResult × SysState :=
  if pts.length = 0 then (.badRequest, st)
  else if pts.length > 5000 then
    (.acceptedHighThroughput, runHighThroughput st pts)
  else
    let r := ingestData st pts storageFail cf now rand
    (.fromIngest r.1, r.2)

/-- First-occurrence accumulator pass behind `distinctTypes`. -/
def distinctTypesAux (seen : List String) : List String → List String
  | [] => []
  | t :: rest =>
    if t ∈ seen then distinctTypesAux seen rest
    else t :: distinctTypesAux (t :: seen) rest

/-- First-occurrence order of the distinct `type` fields of a batch
(`Object.keys` of the `reduce` grouping in `processDataJob`). -/
def distinctTypes (ts : List String) : List String := distinctTypesAux [] ts

/-- `processDataJob` (the job worker body): persist the batch, recompute the
short-horizon realtime statistics from storage (`statsOf` is the
`dataRepository.getRealtimeStats` aggregate), cache them under the literal
key `realtime_stats` with TTL 60, then broadcast a global `data_processed`
event and one per-type room event. Returns the new state and the job's
result stats. -/
def processDataJob (statsOf : List DataPoint → JVal) (setFail : Bool)
    (st : SysState) (data : List DataPoint) (batchId : String) :
    SysState × JVal :=
  let db' := st.db ++ data
  let stats := statsOf db'
  let c := cacheSet setFail st.store "realtime_stats" stats 60
  let roomEvents := (distinctTypes (data.map DataPoint.type)).map
    (fun t => Broadcast.room ("data_" ++ t) t stats)
  (⟨db', c.2, st.queue,
    st.broadcasts ++ Broadcast.global batchId data.length stats :: roomEvents⟩,
   stats)

/-- `DataService.getRealtimeStats`: serve a truthy cached value under
`CACHE_KEY.REALTIME_STATS`; otherwise recompute from storage and cache the
result there with TTL 30. -/
def getRealtimeStats (statsOf : List DataPoint → JVal)
    (getFail setFail : Bool) (st : SysState) : JVal × SysState :=
  match cacheGet getFail st.store REALTIME_STATS_KEY with
  | some v =>
    if truthy v then (v, st)
    else
      let stats := statsOf st.db
      let c := cacheSet setFail st.store REALTIME_STATS_KEY stats 30
      (stats, { st with store := c.2 })
  | none =>
    let stats := statsOf st.db
    let c := cacheSet setFail st.store REALTIME_STATS_KEY stats 30
    (stats, { st with store := c.2 })

/-- The topic-subscription registry of `WebSocketService`
(`roomSubscriptions : Map room (Set socketId)`), as an association list in
insertion order with subscriber lists in insertion order. -/
abbrev Registry := List (String × List String)

/-- JS `Set.add`: append if absent. -/
def addSub (subs : List String) (sid : String) : List String :=
  if sid ∈ subs then subs else subs ++ [sid]

/-- The `subscribe` handler: unauthenticated sockets are rejected before any
mutation; otherwise the room entry is created on demand and the socket id
added to its set. -/
def subscribe (auth : Bool) (reg : Registry) (sid room : String) : Registry :=
  if auth = false then reg
  else if reg.any (fun p => p.1 == room) then
    reg.map (fun p => if p.1 == room then (p.1, addSub p.2 sid) else p)
  else reg ++ [(room, addSub [] sid)]

/-- The `unsubscribe` handler: remove the socket id from the room's set and
drop the room entry entirely when the set becomes empty. -/
def unsubscribe (reg : Registry) (sid room : String) : Registry :=
  reg.filterMap (fun p =>
    if p.1 == room then
      let s := p.2.filter (fun x => x != sid)
      if s.isEmpty then none else some (p.1, s)
    else some p)

/-- The `disconnect` handler: remove the socket id from every room's set,
dropping every room entry whose set becomes empty. -/
def disconnect (reg : Registry) (sid : String) : Registry :=
  reg.filterMap (fun p =>
    let s := p.2.filter (fun x => x != sid)
    if s.isEmpty then none else some (p.1, s))

/-- The registry invariant of claim C10: no topic entry has an empty
subscriber set. -/
def RegInv (reg : Registry) : Prop := ∀ p ∈ reg, p.2 ≠ []

/-! ### Store and memory-tier lemmas -/

theorem storeLookup_storeSet_self (st : Store) (k : String) (v : JVal)
    (ttl : Nat) : storeLookup (storeSet st k v ttl) k = some v := by
  simp [storeSet, storeLookup]

theorem globChars_trailing_star (p : List Char) : ∀ (s : List Char),
    p.isPrefixOf s → globChars (p ++ ['*']) s = true := by
  induction p with
  | nil =>
    intro s _
    simp [globChars]
  | cons c cs ih =>
    intro s hp
    cases s with
    | nil => simp [List.isPrefixOf] at hp
    | cons k ks =>
      simp only [List.isPrefixOf, Bool.and_eq_true, beq_iff_eq] at hp
      simp only [List.cons_append, globChars]
      rw [if_neg (by simp)]
      simp [hp.1, ih ks hp.2]

theorem globMatch_trailing_star (stem key : String)
    (h : stem.data.IsPrefix key.data) :
    globMatch (stem ++ "*") key = true := by
  have hd : (stem ++ "*").data = stem.data ++ ['*'] := by
    simp [String.data_append]
  rw [globMatch, hd]
  exact globChars_trailing_star stem.data key.data
    (List.isPrefixOf_iff_prefix.mpr h)

theorem storeRemoveMatching_lookup (pat key : String)
    (h : globMatch pat key = true) :
    ∀ st : Store, storeLookup (storeRemoveMatching st pat) key = none := by
  intro st
  induction st with
  | nil => rfl
  | cons e rest ih =>
    obtain ⟨k', v, ttl⟩ := e
    by_cases hk : globMatch pat k' = true
    · simp [storeRemoveMatching, hk, ih]
    · have hne : k' ≠ key := by
        intro he
        rw [he] at hk
        exact hk h
      simp [storeRemoveMatching, hk, storeLookup, hne, ih]

theorem memLookup_memSet_self (m : MemCache) (k : String) (v : JVal)
    (e : Nat) : memLookup (memSet m k v e) k = some (v, e) := by
  simp [memSet, memLookup]

/-- Claim C6: for every key, serializable value (falsy ones included) and
TTL, a `set` immediately followed by `get` returns the value — the
truthiness guard in `get` inspects the serialized string, which is never
empty — and after an `invalidatePattern` whose trailing-star glob covers a
prefix of the key, `get` returns absent. -/
theorem cache_set_get_roundtrip_and_invalidation :
    (∀ (st : Store) (k : String) (v : JVal) (ttl : Nat),
      cacheGet false (cacheSet false st k v ttl).2 k = some v) ∧
    (∀ (st : Store) (k stem : String), stem.data <+: k.data →
      cacheGet false (cacheInvalidatePattern false st (stem ++ "*")).2 k = none) := by
  constructor
  · intro st k v ttl
    simp [cacheGet, cacheSet, storeLookup_storeSet_self, stringify_ne_empty v]
  · intro st k stem hp
    have hfull : (KEY_NS ++ stem).data <+: (getKey k).data := by
      obtain ⟨t, ht⟩ := hp
      refine ⟨t, ?_⟩
      rw [getKey, String.data_append, String.data_append, List.append_assoc, ht]
    have hmatch : globMatch ((KEY_NS ++ stem) ++ "*") (getKey k) = true :=
      globMatch_trailing_star _ _ hfull
    have hassoc : KEY_NS ++ (stem ++ "*") = (KEY_NS ++ stem) ++ "*" :=
      (String.append_assoc _ _ _).symm
    simp only [cacheGet, cacheInvalidatePattern, if_neg (by simp : ¬(false = true)),
      Bool.false_eq_true, if_false]
    rw [hassoc, storeRemoveMatching_lookup _ _ hmatch]

/-- Witness for C6 at a concrete history key and the falsy value `0`. -/
theorem cache_set_get_roundtrip_and_invalidation_witness :
    ("data:history:".data <+: "data:history:q1".data) ∧
    cacheGet false
      (cacheSet false [] "data:history:q1" (JVal.num 0) 120).2
      "data:history:q1" = some (JVal.num 0) ∧
    cacheGet false
      (cacheInvalidatePattern false
        (cacheSet false [] "data:history:q1" (JVal.num 0) 120).2
        ("data:history:" ++ "*")).2 "data:history:q1" = none := by
  have hp : "data:history:".data <+: "data:history:q1".data := ⟨"q1".data, by decide⟩
  exact ⟨hp,
    cache_set_get_roundtrip_and_invalidation.1 [] "data:history:q1" (JVal.num 0) 120,
    cache_set_get_roundtrip_and_invalidation.2
      (cacheSet false [] "data:history:q1" (JVal.num 0) 120).2
      "data:history:q1" "data:history:" hp⟩

/-- Claim C7, amended: for a key whose value lives only in the shared tier
and whose value is truthy, one `getMultiLevel` returns it after one shared
round trip and repopulates the in-process tier with the fixed `now + 60000`
local expiry (the shared entry's TTL — part of the arbitrary `st` — plays no
role); every further `getMultiLevel` strictly within those 60 seconds
returns the value from the in-process tier with zero shared round trips,
whatever the shared tier then holds. -/
theorem getMultiLevel_truthy_promotion :
    ∀ (mem : MemCache) (st : Store) (k : String) (v : JVal) (t : Nat),
      memLookup mem k = none →
      storeLookup st (getKey k) = some v →
      truthy v = true →
      getMultiLevel false mem st k t = (some v, memSet mem k v (t + 60000), 1) ∧
      ∀ (st' : Store) (t' : Nat), t' < t + 60000 →
        getMultiLevel false (memSet mem k v (t + 60000)) st' k t' =
          (some v, memSet mem k v (t + 60000), 0) := by
  intro mem st k v t hmem hst htr
  constructor
  · simp [getMultiLevel, hmem, getMultiLevelShared, cacheGet, hst,
      stringify_ne_empty v, htr]
  · intro st' t' ht'
    simp [getMultiLevel, memLookup_memSet_self, ht']

/-- Witness for C7's amended theorem: a value present only in the shared
tier is promoted and then served locally at `t = 59999 < 60000`, even after
the shared tier is emptied. -/
theorem getMultiLevel_truthy_promotion_witness :
    memLookup [] "s" = none ∧
    storeLookup [(getKey "s", JVal.num 7, 300)] (getKey "s") = some (JVal.num 7) ∧
    truthy (JVal.num 7) = true ∧
    getMultiLevel false [] [(getKey "s", JVal.num 7, 300)] "s" 0 =
      (some (JVal.num 7), memSet [] "s" (JVal.num 7) 60000, 1) ∧
    getMultiLevel false (memSet [] "s" (JVal.num 7) 60000) [] "s" 59999 =
      (some (JVal.num 7), memSet [] "s" (JVal.num 7) 60000, 0) := by
  have h := getMultiLevel_truthy_promotion [] [(getKey "s", JVal.num 7, 300)]
    "s" (JVal.num 7) 0 (by rfl) (by simp [storeLookup]) (by decide)
  exact ⟨rfl, by simp [storeLookup], by decide, h.1, h.2 [] 59999 (by decide)⟩

/-- Counterexample to claim C7 as stated: the value `false` lives only in
the shared tier, yet `getMultiLevel` returns absent, does not repopulate
the in-process tier, and a second read within 60 seconds still performs a
shared round trip and still returns absent — because `getMultiLevel` tests
the truthiness of the parsed value. -/
theorem getMultiLevel_falsy_shared_value_miss :
    storeLookup [(getKey "s2", JVal.bool false, 300)] (getKey "s2") =
      some (JVal.bool false) ∧
    getMultiLevel false [] [(getKey "s2", JVal.bool false, 300)] "s2" 0 =
      (none, [], 1) ∧
    getMultiLevel false [] [(getKey "s2", JVal.bool false, 300)] "s2" 1000 =
      (none, [], 1) := by
  refine ⟨by simp [storeLookup], ?_, ?_⟩ <;> rfl

/-! ### Validation lemmas

The first guard of `validateDataPoints` tests `typeof point.value`, so for a
point whose value is not a string it throws the type message, and for a
point whose value *is* a string the second guard throws the value message:
every point is rejected. -/

theorem validatePoint_error (p : DataPoint) :
    ∃ m, validatePoint p = .error (.invalid m) := by
  unfold validatePoint
  by_cases h : jsTypeOf p.value = "string"
  · by_cases ht : p.type = ""
    · exact ⟨typeErrMsg, by simp [ht]⟩
    · refine ⟨valueErrMsg, ?_⟩
      rw [if_neg (by simp [ht, h])]
      rw [if_pos (by simp [h])]
  · exact ⟨typeErrMsg, by simp [h]⟩

theorem validateDataPoints_cons (p : DataPoint) (l : List DataPoint) :
    ∃ m, validateDataPoints (p :: l) = .error (.invalid m) := by
  obtain ⟨m, hm⟩ := validatePoint_error p
  exact ⟨m, by simp [validateDataPoints, hm]⟩

theorem ingestData_error_shape (st : SysState) (pts : List DataPoint)
    (storageFail : Bool) (cf : CacheFaults) (now : Nat) (rand : String) :
    (pts = [] ∧
      ingestData st pts storageFail cf now rand = (.error .noPoints, st)) ∨
    (∃ m, ingestData st pts storageFail cf now rand =
      (.error (.invalid m), st)) := by
  cases pts with
  | nil => exact .inl ⟨rfl, by rfl⟩
  | cons p l =>
    obtain ⟨m, hm⟩ := validateDataPoints_cons p l
    exact .inr ⟨m, by simp [ingestData, hm]⟩

/-- Claim C1 (code-bug evidence): a singleton batch whose point is valid in
the spec's sense — non-empty string type, numeric value — makes
`ingestData` throw the validation error whose message speaks about `type`,
instead of persisting synchronously and returning `queued = false`; the
state is untouched. -/
theorem ingestData_rejects_valid_singleton :
    specValidPoint ⟨"temperature", .num (43/2), none⟩ = true ∧
    ([(⟨"temperature", .num (43/2), none⟩ : DataPoint)]).length ≤ 10 ∧
    ingestData ⟨[], [], [], []⟩ [⟨"temperature", .num (43/2), none⟩]
        false noFaults 0 "rnd0a1b" =
      (.error (.invalid typeErrMsg), ⟨[], [], [], []⟩) := by
  exact ⟨rfl, by decide, rfl⟩

/-- Claim C3: cache failures never propagate. On a broker error `get`
returns absent and `set`/`del`/`invalidatePattern` return `false` leaving
the store untouched (none throws); `invalidateDataCaches` is total for
every fault assignment; and `ingestData` never surfaces a cache-originated
error for any input, fault assignment, or clock. -/
theorem cache_failures_never_propagate :
    (∀ (st : Store) (k : String), cacheGet true st k = none) ∧
    (∀ (st : Store) (k : String) (v : JVal) (ttl : Nat),
      cacheSet true st k v ttl = (false, st)) ∧
    (∀ (st : Store) (k : String), cacheDel true st k = (false, st)) ∧
    (∀ (st : Store) (p : String),
      cacheInvalidatePattern true st p = (false, st)) ∧
    (∀ (cf : CacheFaults) (st : SysState) (pts : List DataPoint)
       (storageFail : Bool) (now : Nat) (rand : String),
      (ingestData st pts storageFail cf now rand).1 ≠
        .error .cacheFailure) := by
  refine ⟨fun st k => rfl, fun st k v ttl => rfl, fun st k => rfl,
    fun st p => rfl, ?_⟩
  intro cf st pts storageFail now rand
  rcases ingestData_error_shape st pts storageFail cf now rand with
    ⟨_, h⟩ | ⟨m, h⟩ <;> simp [h]

/-- Counterexample to claim C5 as stated: eleven spec-valid points (size in
the queued band) are rejected with the validation error about `type`; no
job is enqueued and the state is untouched, so `queued = true` is never
returned. -/
theorem ingestData_midsize_valid_batch_errors :
    (∀ p ∈ List.replicate 11 (⟨"humidity", .num 52, none⟩ : DataPoint),
      specValidPoint p = true) ∧
    10 < (List.replicate 11 (⟨"humidity", .num 52, none⟩ : DataPoint)).length ∧
    (List.replicate 11 (⟨"humidity", .num 52, none⟩ : DataPoint)).length ≤ 5000 ∧
    ingestData ⟨[], [], [], []⟩
        (List.replicate 11 (⟨"humidity", .num 52, none⟩ : DataPoint))
        false noFaults 3 "rnd9z8y" =
      (.error (.invalid typeErrMsg), ⟨[], [], [], []⟩) := by
  exact ⟨by decide, by decide, by decide, rfl⟩

theorem ingestData_always_errors :
    ∀ (st : SysState) (pts : List DataPoint) (storageFail : Bool)
      (cf : CacheFaults) (now : Nat) (rand : String),
      ∃ e, ingestData st pts storageFail cf now rand = (.error e, st) := by
  intro st pts storageFail cf now rand
  rcases ingestData_error_shape st pts storageFail cf now rand with
    ⟨_, h⟩ | ⟨m, h⟩
  · exact ⟨.noPoints, h⟩
  · exact ⟨.invalid m, h⟩

/-- Claim C5, amended: because of the validation slip, `ingestData` throws
a validation error (or the empty-batch error) on every input, so it never
enqueues, persists, or touches a cache entry, and never returns
`queued = true`: the result is always an error with the state unchanged. -/
theorem ingestData_never_queues :
    ∀ (st : SysState) (pts : List DataPoint) (storageFail : Bool)
      (cf : CacheFaults) (now : Nat) (rand : String),
      ∃ e, ingestData st pts storageFail cf now rand = (.error e, st) :=
  ingestData_always_errors

/-- Claim C8: a batch containing a point that violates the spec's
validation rules is rejected whole with a validation error and the state —
persisted points, cache store, job queue — is exactly the input state: no
side effect precedes the throw. -/
theorem ingestData_invalid_batch_all_or_nothing :
    ∀ (st : SysState) (pts : List DataPoint) (storageFail : Bool)
      (cf : CacheFaults) (now : Nat) (rand : String),
      (∃ p ∈ pts, specValidPoint p = false) →
      ∃ m, ingestData st pts storageFail cf now rand =
        (.error (.invalid m), st) := by
  intro st pts storageFail cf now rand hbad
  rcases ingestData_error_shape st pts storageFail cf now rand with
    ⟨hnil, _⟩ | hok
  · obtain ⟨p, hp, _⟩ := hbad
    rw [hnil] at hp
    simp at hp
  · exact hok

/-- Witness for C8 at a batch whose second point has an empty type. -/
theorem ingestData_invalid_batch_all_or_nothing_witness :
    (∃ p ∈ [(⟨"pressure", .num 3, none⟩ : DataPoint), ⟨"", .num 4, none⟩],
      specValidPoint p = false) ∧
    ∃ m, ingestData ⟨[], [], [], []⟩
        [(⟨"pressure", .num 3, none⟩ : DataPoint), ⟨"", .num 4, none⟩]
        false noFaults 9 "rndq2w3" =
      (.error (.invalid m), ⟨[], [], [], []⟩) := by
  exact ⟨by decide,
    ingestData_invalid_batch_all_or_nothing ⟨[], [], [], []⟩
      [⟨"pressure", .num 3, none⟩, ⟨"", .num 4, none⟩]
      false noFaults 9 "rndq2w3" (by decide)⟩

/-- Counterexample to claim C9 as stated: on a spec-valid singleton (the
synchronous band) `ingestData` throws the validation error, so no batch
identifier — timestamp-plus-random-suffix or otherwise — is ever returned. -/
theorem ingestData_returns_no_identifier :
    specValidPoint ⟨"speed", .num 12, none⟩ = true ∧
    ingestData ⟨[], [], [], []⟩ [⟨"speed", .num 12, none⟩] false noFaults 5
        "abcdefg" =
      (.error (.invalid typeErrMsg), ⟨[], [], [], []⟩) := by
  exact ⟨rfl, rfl⟩

/-- Claim C9, amended: `ingestData` currently returns no identifier at all
(it errors on every batch, state unchanged). Of the two identifier
expressions in its source, the queued-path `batch_now_rand` does combine
the timestamp with the random suffix (distinct suffixes at one timestamp
give distinct identifiers), but the synchronous-path identifier is exactly
`immediate_now` — timestamp only, no random suffix — so two synchronous
submissions in the same millisecond would share an identifier. -/
theorem batch_identifier_format :
    (∀ (st : SysState) (pts : List DataPoint) (storageFail : Bool)
       (cf : CacheFaults) (now : Nat) (rand : String),
      ∃ e, ingestData st pts storageFail cf now rand = (.error e, st)) ∧
    (∀ (t : Nat) (r₁ r₂ : String),
      queuedBatchId t r₁ = queuedBatchId t r₂ → r₁ = r₂) ∧
    (∀ t : Nat, immediateBatchId t = "immediate_" ++ Nat.repr t) := by
  refine ⟨ingestData_always_errors, ?_, fun t => rfl⟩
  intro t r₁ r₂ h
  have hd := data_eq_of_eq h
  rw [queuedBatchId, queuedBatchId] at hd
  simp only [String.data_append] at hd
  rw [List.append_assoc, List.append_assoc, List.append_assoc,
    List.append_assoc] at hd
  have h1 := List.append_cancel_left hd
  have h2 := List.append_cancel_left h1
  have h3 := List.append_cancel_left h2
  exact string_ext h3

/-- Witness for C9's amended theorem, discharging the injectivity
hypothesis at one timestamp and suffix and the error shape at a concrete
call. -/
theorem batch_identifier_format_witness :
    (∃ e, ingestData ⟨[], [], [], []⟩ [] false noFaults 0 "" =
      (.error e, ⟨[], [], [], []⟩)) ∧ ("zz" : String) = "zz" := by
  exact ⟨batch_identifier_format.1 ⟨[], [], [], []⟩ [] false noFaults 0 "",
    batch_identifier_format.2.1 4 "zz" "zz" rfl⟩

/-- Stats collaborator used for concrete scenarios: the realtime aggregate
reduced to the number of stored points. -/
def lenStats (db : List DataPoint) : JVal := JVal.num db.length

/-- Claim C2 (code-bug evidence): the worker persists the batch, recomputes
the stats and broadcasts them, but writes the recomputed stats to the cache
key `realtime_stats`, while the realtime-stats read path consults
`CACHE_KEY.REALTIME_STATS = data:realtime_stats`. Starting from a store
whose read-path entry holds stale stats (`7`), processing a one-point batch
leaves that entry untouched, and the next `getRealtimeStats` returns the
stale `7`, not the recomputed `1`. -/
theorem processDataJob_stats_cache_key_mismatch :
    getKey "realtime_stats" ≠ getKey REALTIME_STATS_KEY ∧
    (processDataJob lenStats false
        ⟨[], [(getKey REALTIME_STATS_KEY, JVal.num 7, 30)], [], []⟩
        [⟨"temperature", .num 9, none⟩] "b1").1.db =
      [⟨"temperature", .num 9, none⟩] ∧
    (processDataJob lenStats false
        ⟨[], [(getKey REALTIME_STATS_KEY, JVal.num 7, 30)], [], []⟩
        [⟨"temperature", .num 9, none⟩] "b1").2 = JVal.num 1 ∧
    storeLookup (processDataJob lenStats false
        ⟨[], [(getKey REALTIME_STATS_KEY, JVal.num 7, 30)], [], []⟩
        [⟨"temperature", .num 9, none⟩] "b1").1.store
      (getKey "realtime_stats") = some (JVal.num 1) ∧
    storeLookup (processDataJob lenStats false
        ⟨[], [(getKey REALTIME_STATS_KEY, JVal.num 7, 30)], [], []⟩
        [⟨"temperature", .num 9, none⟩] "b1").1.store
      (getKey REALTIME_STATS_KEY) = some (JVal.num 7) ∧
    (getRealtimeStats lenStats false false
      (processDataJob lenStats false
        ⟨[], [(getKey REALTIME_STATS_KEY, JVal.num 7, 30)], [], []⟩
        [⟨"temperature", .num 9, none⟩] "b1").1).1 = JVal.num 7 ∧
    JVal.num 7 ≠ JVal.num 1 ∧
    (processDataJob lenStats false
        ⟨[], [(getKey REALTIME_STATS_KEY, JVal.num 7, 30)], [], []⟩
        [⟨"temperature", .num 9, none⟩] "b1").1.broadcasts =
      [Broadcast.global "b1" 1 (JVal.num 1),
       Broadcast.room "data_temperature" "temperature" (JVal.num 1)] := by
  refine ⟨by decide, rfl, rfl, by decide, by decide, by decide, by decide, rfl⟩

/-! ### Chunking lemmas for the high-throughput path -/

theorem chunkBatches_nil : chunkBatches [] = [] := by
  rw [chunkBatches]

theorem chunkBatches_cons (p : DataPoint) (rest : List DataPoint) :
    chunkBatches (p :: rest) =
      (p :: rest).take 1000 :: chunkBatches ((p :: rest).drop 1000) := by
  rw [chunkBatches]

theorem chunkBatches_flatten (l : List DataPoint) :
    (chunkBatches l).flatten = l := by
  induction l using chunkBatches.induct with
  | case1 => rw [chunkBatches_nil]; rfl
  | case2 p rest ih =>
    rw [chunkBatches_cons, List.flatten_cons, ih, List.take_append_drop]

theorem chunkBatches_length (l : List DataPoint) :
    (chunkBatches l).length = (l.length + 999) / 1000 := by
  induction l using chunkBatches.induct with
  | case1 => rw [chunkBatches_nil]; rfl
  | case2 p rest ih =>
    rw [chunkBatches_cons, List.length_cons, ih, List.length_drop]
    simp only [List.length_cons]
    omega

theorem chunkBatches_get? (l : List DataPoint) :
    ∀ (i : Nat) (c : List DataPoint), (chunkBatches l)[i]? = some c →
      c = (l.drop (1000 * i)).take 1000 := by
  induction l using chunkBatches.induct with
  | case1 =>
    intro i c hc
    rw [chunkBatches_nil] at hc
    simp at hc
  | case2 p rest ih =>
    intro i c hc
    rw [chunkBatches_cons] at hc
    cases i with
    | zero => simp at hc; simpa using hc.symm
    | succ j =>
      rw [List.getElem?_cons_succ] at hc
      have h2 := ih j c hc
      rw [h2, List.drop_drop]
      rw [show 1000 + 1000 * j = 1000 * (j + 1) by ring]

theorem queueChunks_length (bs : List (List DataPoint)) :
    ∀ idx : Nat, (queueChunks idx bs).length = bs.length := by
  induction bs with
  | nil => intro idx; rfl
  | cons b bs ih => intro idx; simp [queueChunks, ih]

theorem queueChunks_map_data (bs : List (List DataPoint)) :
    ∀ idx : Nat, (queueChunks idx bs).map QueueJob.data = bs := by
  induction bs with
  | nil => intro idx; rfl
  | cons b bs ih => intro idx; simp [queueChunks, ih]

theorem queueChunks_get? (bs : List (List DataPoint)) :
    ∀ (idx i : Nat),
      (queueChunks idx bs)[i]? =
        (bs[i]?).map (fun b => ⟨b, if idx + i < 3 then 2 else 1⟩) := by
  induction bs with
  | nil => intro idx i; simp [queueChunks]
  | cons b bs ih =>
    intro idx i
    cases i with
    | zero => simp [queueChunks]
    | succ j =>
      simp only [queueChunks, List.getElem?_cons_succ, ih (idx + 1) j]
      rw [show idx + 1 + j = idx + (j + 1) by ring]

/-- Claim C4: a batch of more than 5000 points submitted at the ingestion
entry point takes the high-throughput path: the call only admits jobs (no
synchronous persistence, cache write, or broadcast), the admitted payloads
are the consecutive 1000-point chunks of the input in order (the final
chunk carrying the remainder), and chunk `i` is enqueued at priority 2 for
`i < 3` and priority 1 otherwise. -/
theorem highThroughput_chunking :
    ∀ (st : SysState) (pts : List DataPoint) (storageFail : Bool)
      (cf : CacheFaults) (now : Nat) (rand : String),
      5000 < pts.length →
      (controllerIngest st pts storageFail cf now rand).1 =
        .acceptedHighThroughput ∧
      (controllerIngest st pts storageFail cf now rand).2.db = st.db ∧
      (controllerIngest st pts storageFail cf now rand).2.store = st.store ∧
      (controllerIngest st pts storageFail cf now rand).2.broadcasts =
        st.broadcasts ∧
      (controllerIngest st pts storageFail cf now rand).2.queue =
        st.queue ++ ingestHighThroughputData pts ∧
      ((ingestHighThroughputData pts).map QueueJob.data).flatten = pts ∧
      (ingestHighThroughputData pts).length = (pts.length + 999) / 1000 ∧
      ∀ (i : Nat) (h : i < (ingestHighThroughputData pts).length),
        ((ingestHighThroughputData pts).get ⟨i, h⟩).priority =
          (if i < 3 then 2 else 1) ∧
        ((ingestHighThroughputData pts).get ⟨i, h⟩).data =
          (pts.drop (1000 * i)).take 1000 ∧
        ((ingestHighThroughputData pts).get ⟨i, h⟩).data.length =
          min 1000 (pts.length - 1000 * i) := by
  intro st pts storageFail cf now rand hlen
  have hne : ¬ pts.length = 0 := by omega
  have hroute : (controllerIngest st pts storageFail cf now rand) =
      (.acceptedHighThroughput, runHighThroughput st pts) := by
    rw [controllerIngest, if_neg hne, if_pos hlen]
  have hget : ∀ (i : Nat) (h : i < (ingestHighThroughputData pts).length),
      (ingestHighThroughputData pts).get ⟨i, h⟩ =
        ⟨(pts.drop (1000 * i)).take 1000, if i < 3 then 2 else 1⟩ := by
    intro i h
    have h1 : (ingestHighThroughputData pts)[i]? =
        some ((ingestHighThroughputData pts).get ⟨i, h⟩) := by
      rw [List.getElem?_eq_getElem h, List.get_eq_getElem]
    have h2 : (ingestHighThroughputData pts)[i]? =
        ((chunkBatches pts)[i]?).map
          (fun b => ⟨b, if 0 + i < 3 then 2 else 1⟩) := by
      exact queueChunks_get? _ 0 i
    rw [h2] at h1
    rcases hsome : (chunkBatches pts)[i]? with _ | c
    · rw [hsome] at h1; simp at h1
    · rw [hsome] at h1
      have h3 : ({ data := c, priority := if 0 + i < 3 then 2 else 1 } : QueueJob) =
          (ingestHighThroughputData pts).get ⟨i, h⟩ := Option.some.inj h1
      rw [← h3, chunkBatches_get? pts i c hsome]
      simp
  refine ⟨by rw [hroute], by rw [hroute]; rfl, by rw [hroute]; rfl,
    by rw [hroute]; rfl, by rw [hroute]; rfl, ?_, ?_, ?_⟩
  · unfold ingestHighThroughputData
    rw [queueChunks_map_data, chunkBatches_flatten]
  · unfold ingestHighThroughputData
    rw [queueChunks_length, chunkBatches_length]
  · intro i h
    refine ⟨by rw [hget i h], by rw [hget i h], ?_⟩
    rw [hget i h]
    simp only [List.length_take, List.length_drop]

/-- Witness for C4 at a concrete 5001-point stream. -/
theorem highThroughput_chunking_witness :
    5000 < (List.replicate 5001 (⟨"speed", .num 1, none⟩ : DataPoint)).length ∧
    (controllerIngest ⟨[], [], [], []⟩
        (List.replicate 5001 (⟨"speed", .num 1, none⟩ : DataPoint))
        false noFaults 0 "rndc4aa").1 = .acceptedHighThroughput := by
  have h5 : 5000 <
      (List.replicate 5001 (⟨"speed", .num 1, none⟩ : DataPoint)).length := by
    rw [List.length_replicate]
    omega
  exact ⟨h5, (highThroughput_chunking ⟨[], [], [], []⟩
    (List.replicate 5001 (⟨"speed", .num 1, none⟩ : DataPoint))
    false noFaults 0 "rndc4aa" h5).1⟩

/-! ### Registry lemmas -/

theorem addSub_ne_nil (l : List String) (sid : String) : addSub l sid ≠ [] := by
  by_cases hm : sid ∈ l
  · simp only [addSub, if_pos hm]
    intro h
    rw [h] at hm
    simp at hm
  · simp [addSub, hm]

theorem regInv_subscribe (auth : Bool) (reg : Registry) (sid room : String)
    (h : RegInv reg) : RegInv (subscribe auth reg sid room) := by
  unfold subscribe
  split
  · exact h
  · split
    · intro p hp
      rw [List.mem_map] at hp
      obtain ⟨q, hq, hpq⟩ := hp
      by_cases hr : q.1 == room
      · rw [if_pos hr] at hpq
        rw [← hpq]
        exact addSub_ne_nil _ _
      · rw [if_neg hr] at hpq
        rw [← hpq]
        exact h q hq
    · intro p hp
      rw [List.mem_append] at hp
      rcases hp with hp | hp
      · exact h p hp
      · simp only [List.mem_singleton] at hp
        rw [hp]
        exact addSub_ne_nil [] sid

theorem regInv_unsubscribe (reg : Registry) (sid room : String)
    (h : RegInv reg) : RegInv (unsubscribe reg sid room) := by
  intro p hp
  rw [unsubscribe, List.mem_filterMap] at hp
  obtain ⟨q, hq, hf⟩ := hp
  by_cases hr : q.1 == room
  · rw [if_pos hr] at hf
    by_cases hs : (q.2.filter (fun x => x != sid)).isEmpty
    · simp [hs] at hf
    · simp only [hs, Bool.false_eq_true, if_false, Option.some_inj] at hf
      rw [← hf]
      intro hnil
      have h5 : q.2.filter (fun x => x != sid) = [] := hnil
      rw [h5] at hs
      exact hs rfl
  · rw [if_neg hr, Option.some_inj] at hf
    rw [← hf]
    exact h q hq

theorem regInv_disconnect (reg : Registry) (sid : String) :
    RegInv (disconnect reg sid) := by
  intro p hp
  rw [disconnect, List.mem_filterMap] at hp
  obtain ⟨q, _, hf⟩ := hp
  by_cases hs : (q.2.filter (fun x => x != sid)).isEmpty
  · simp [hs] at hf
  · simp only [hs, Bool.false_eq_true, if_false, Option.some_inj] at hf
    rw [← hf]
    intro hnil
    have h5 : q.2.filter (fun x => x != sid) = [] := hnil
    rw [h5] at hs
    exact hs rfl

/-- Claim C10: the topic registry starts empty, and every mutation —
subscribe (authenticated or not), unsubscribe, disconnect — preserves the
invariant that every topic present has at least one subscriber, because an
entry whose set would become empty is deleted outright. -/
theorem registry_no_empty_topic :
    RegInv ([] : Registry) ∧
    ∀ (reg : Registry) (sid room : String) (auth : Bool), RegInv reg →
      RegInv (subscribe auth reg sid room) ∧
      RegInv (unsubscribe reg sid room) ∧
      RegInv (disconnect reg sid) := by
  refine ⟨by intro p hp; simp at hp, ?_⟩
  intro reg sid room auth h
  exact ⟨regInv_subscribe auth reg sid room h,
    regInv_unsubscribe reg sid room h, regInv_disconnect reg sid⟩

/-- Witness for C10 at a concrete registry with two topics, exercising a
last-subscriber unsubscribe. -/
theorem registry_no_empty_topic_witness :
    RegInv [("news", ["a"]), ("metrics", ["a", "b"])] ∧
    RegInv (subscribe true [("news", ["a"]), ("metrics", ["a", "b"])] "c" "news") ∧
    RegInv (unsubscribe [("news", ["a"]), ("metrics", ["a", "b"])] "a" "news") ∧
    RegInv (disconnect [("news", ["a"]), ("metrics", ["a", "b"])] "a") := by
  have h0 : RegInv [("news", ["a"]), ("metrics", ["a", "b"])] := by
    intro p hp
    rcases List.mem_cons.mp hp with h1 | hp2
    · rw [h1]; simp
    · rcases List.mem_cons.mp hp2 with h1 | hp3
      · rw [h1]; simp
      · simp at hp3
  have h := registry_no_empty_topic.2
    [("news", ["a"]), ("metrics", ["a", "b"])] "a" "news" true h0
  have h2 := registry_no_empty_topic.2
    [("news", ["a"]), ("metrics", ["a", "b"])] "c" "news" true h0
  exact ⟨h0, h2.1, h.2.1, h.2.2⟩

end Shrig
